import Mathlib

/-!
Verification of the hyper LMDB data adapter (src/packages/adapter-lmdb/adapter.ts).

The adapter is a document-store layer over an ordered key-value engine.  We
shallowly embed the adapter's pure data model and its operations:
JavaScript values become `Value`, documents become association lists of
fields, the LMDB regions become key-sorted association lists, and the
crocks `Async` error pipeline becomes an `Except` over an explicit outcome
type.  Each adapter operation is an explicit state-passing function on `Env`.

Modelling notes (all deliberate, none affecting the claims proved below):
- JS numbers are modelled as `Int` (no claim involves fractional values);
- array and nested-object field values are omitted from `Value`
  (no claim involves them);
- `localeCompare` is modelled as code-point comparison (the claims proved
  do not depend on the particular order of two distinct strings);
- cross-type `>`/`<` coercions in selector operators are modelled as false
  (the claims only exercise same-type comparisons);
- `Date.now`/`Math.random` in `generateId` and `toISOString` timestamps are
  modelled by a counter `Env.fresh`.
-/

namespace HyperLmdb

/-- JavaScript scalar values as stored in documents and selectors. -/
inductive Value where
  | undef
  | null
  | bool (b : Bool)
  | num (n : Int)
  | str (s : String)
deriving Repr, DecidableEq

/-- JS strict equality `===` on scalar values. -/
def valEq : Value → Value → Bool
  | .undef, .undef => true
  | .null, .null => true
  | .bool a, .bool b => a == b
  | .num a, .num b => a == b
  | .str a, .str b => a == b
  | _, _ => false

/-- Whether a value is `null` or `undefined` (ramda `isNil`). -/
def isNullish : Value → Bool
  | .undef => true
  | .null => true
  | _ => false

/-- JS truthiness: `undefined`, `null`, `false`, `0` and the empty string are falsy. -/
def jsFalsy : Value → Bool
  | .undef => true
  | .null => true
  | .bool b => !b
  | .num n => n == 0
  | .str s => s == ""

/-- Coercion of a document id value to a storage key.  The claims below only
exercise string ids; other truthy values are coerced to their string form. -/
def keyOfId : Value → String
  | .str s => s
  | .num n => toString n
  | .bool b => toString b
  | .undef => "undefined"
  | .null => "null"

/-- A document: a JS object, i.e. an ordered association list of fields.
JS objects cannot carry duplicate keys; theorems that need this assume
`keysNodup`. -/
abbrev Doc := List (String × Value)

/-- Field access, ramda `prop`: the value at the matching field,
`undefined` if absent. -/
def getProp (f : String) : Doc → Value
  | [] => .undef
  | p :: rest => if p.1 == f then p.2 else getProp f rest

/-- Field presence, ramda `has`. -/
def hasField (f : String) (d : Doc) : Bool :=
  d.any (fun p => p.1 == f)

/-- The JS no-duplicate-keys invariant of an object literal. -/
def keysNodup (d : Doc) : Prop := (d.map Prod.fst).Nodup

/-- JS property assignment `obj[f] = v`: an existing key is updated in place,
a new key is appended. -/
def setField : Doc → String → Value → Doc
  | [], f, v => [(f, v)]
  | p :: rest, f, v => if p.1 == f then (f, v) :: rest else p :: setField rest f v

/-- JS object spread: the fields of `over` assigned one by one onto `base`. -/
def objSpread (base over : Doc) : Doc :=
  over.foldl (fun acc p => setField acc p.1 p.2) base

/-- The list/query result entry construction of adapter.ts. -/
def mkEntry (key : String) (d : Doc) : Doc :=
  objSpread [("_id", .str key)] d

/-- Lexicographic order on character lists by code point, modelling the
engine's ordered string keys. -/
def charListLt : List Char → List Char → Bool
  | [], [] => false
  | [], _ :: _ => true
  | _ :: _, [] => false
  | a :: as, b :: bs =>
    if a.val < b.val then true
    else if b.val < a.val then false
    else charListLt as bs

/-- Strict key order. -/
def keyLt (a b : String) : Bool := charListLt a.data b.data

/-- Reflexive key order. -/
def keyLe (a b : String) : Bool := keyLt a b || a == b

/-- Association-list lookup (the `Map`/meta-database `get`). -/
def alGet {α : Type} : List (String × α) → String → Option α
  | [], _ => none
  | p :: rest, k => if p.1 == k then some p.2 else alGet rest k

/-- Association-list insert-or-replace (the `Map`/meta-database `set`/`put`):
an existing key is updated in place, a new key is appended. -/
def alPut {α : Type} : List (String × α) → String → α → List (String × α)
  | [], k, v => [(k, v)]
  | p :: rest, k, v => if p.1 == k then (k, v) :: rest else p :: alPut rest k v

/-- Association-list removal (the `Map`/meta-database `delete`/`remove`). -/
def alErase {α : Type} (m : List (String × α)) (k : String) : List (String × α) :=
  m.filter (fun p => p.1 != k)

/-- One LMDB region: document entries kept sorted by key. -/
abbrev Store := List (String × Doc)

/-- Engine `put`: insert or replace, keeping keys sorted. -/
def storePut (s : Store) (k : String) (d : Doc) : Store :=
  match s with
  | [] => [(k, d)]
  | (k', d') :: rest =>
    if k == k' then (k, d) :: rest
    else if keyLt k k' then (k, d) :: (k', d') :: rest
    else (k', d') :: storePut rest k d

/-- Engine point `get`. -/
def storeGet : Store → String → Option Doc
  | [], _ => none
  | p :: rest, k => if p.1 == k then some p.2 else storeGet rest k

/-- Engine `remove`. -/
def storeRemove (s : Store) (k : String) : Store :=
  s.filter (fun p => p.1 != k)

/-- The options object passed to the engine's `getRange`.  The source field
`end` is a Lean keyword; it is named `stop` here. -/
structure RangeOpts where
  start : Option String
  stop : Option String
  reverse : Bool
deriving Repr, DecidableEq

/-- Engine ordered range iteration: keys from `start` (inclusive) up to
`stop` (exclusive), reversed when `reverse` is set. -/
def getRange (s : Store) (o : RangeOpts) : List (String × Doc) :=
  let f := s.filter (fun p =>
    (match o.start with | none => true | some st => keyLe st p.1) &&
    (match o.stop with | none => true | some e => keyLt p.1 e))
  if o.reverse then f.reverse else f

/-- JS `<` restricted to same-type operands (numbers numeric, strings by key
order); cross-type numeric coercions are outside the model. -/
def jsLt : Value → Value → Bool
  | .num a, .num b => a < b
  | .str a, .str b => keyLt a b
  | _, _ => false

/-- JS `<=` restricted to same-type operands. -/
def jsLe : Value → Value → Bool
  | .num a, .num b => a ≤ b
  | .str a, .str b => keyLe a b
  | _, _ => false

/-- The recognised operator keys of a selector condition object
(`$eq`, `$ne`, `$gt`, `$gte`, `$lt`, `$lte`, `$in`, `$nin`, `$exists`);
a `none` field means the key is absent from the object. -/
structure OpsObj where
  eqOp : Option Value
  neOp : Option Value
  gtOp : Option Value
  gteOp : Option Value
  ltOp : Option Value
  lteOp : Option Value
  inOp : Option (List Value)
  ninOp : Option (List Value)
  existsOp : Option Bool
deriving Repr, DecidableEq

/-- A selector condition: either a literal (scalar, tested by strict
equality, with nullish literals testing for a nullish field) or an object
of operators. -/
inductive Cond where
  | lit (v : Value)
  | ops (o : OpsObj)
deriving Repr, DecidableEq

/-- A selector: a mapping from field names to conditions. -/
abbrev Selector := List (String × Cond)

/-- The per-field test of `matchesSelector` in adapter.ts. -/
def matchesCond (doc : Doc) (field : String) (c : Cond) : Bool :=
  let docValue := getProp field doc
  match c with
  | .lit v =>
    match v with
    | .null => isNullish docValue
    | .undef => isNullish docValue
    | _ => valEq docValue v
  | .ops o =>
    (match o.eqOp with | none => true | some v => valEq docValue v) &&
    (match o.neOp with | none => true | some v => !valEq docValue v) &&
    (match o.gtOp with | none => true | some v => jsLt v docValue) &&
    (match o.gteOp with | none => true | some v => jsLe v docValue) &&
    (match o.ltOp with | none => true | some v => jsLt docValue v) &&
    (match o.lteOp with | none => true | some v => jsLe docValue v) &&
    (match o.inOp with | none => true | some arr => arr.any (valEq docValue)) &&
    (match o.ninOp with | none => true | some arr => !arr.any (valEq docValue)) &&
    (match o.existsOp with | none => true | some b => b == hasField field doc)

/-- Selector matching of adapter.ts: every field's condition must pass. -/
def matchesSelector (doc : Doc) (sel : Selector) : Bool :=
  sel.all (fun p => matchesCond doc p.1 p.2)

/-- Sort direction literal. -/
inductive Dir where
  | asc
  | desc
deriving Repr, DecidableEq

/-- One sort specification item: a bare field name or a one-key
`field ↦ direction` record. -/
inductive SortKey where
  | name (f : String)
  | dir (f : String) (d : Dir)
deriving Repr, DecidableEq

/-- The field examined by a sort item. -/
def SortKey.fieldOf : SortKey → String
  | .name f => f
  | .dir f _ => f

/-- The direction of a sort item (bare names sort ascending). -/
def SortKey.dirOf : SortKey → Dir
  | .name _ => .asc
  | .dir _ d => d

/-- Model of `String.prototype.localeCompare`: sign of the code-point
comparison (the claims proved below do not depend on the particular
order of two distinct strings). -/
def localeCompare (a b : String) : Int :=
  if keyLt a b then -1 else if keyLt b a then 1 else 0

/-- The comparator body of `sortDocs` in adapter.ts: walk the sort items;
on strict equality of the two field values continue to the next item,
otherwise compute the comparison for this item and return it (negated for
`DESC`), even when it is 0. -/
def cmpDocs (sort : List SortKey) (a b : Doc) : Int :=
  match sort with
  | [] => 0
  | sk :: rest =>
    let aVal := getProp sk.fieldOf a
    let bVal := getProp sk.fieldOf b
    if valEq aVal bVal then cmpDocs rest a b
    else
      let cmp : Int :=
        if isNullish aVal then -1
        else if isNullish bVal then 1
        else
          match aVal, bVal with
          | .str x, .str y => localeCompare x y
          | .num x, .num y => x - y
          | _, _ => 0
      if sk.dirOf = .desc then -cmp else cmp

/-- `sortDocs` of adapter.ts: stable sort by the comparator, identity for an
absent or empty sort specification. -/
def sortDocs (docs : List Doc) (sort : Option (List SortKey)) : List Doc :=
  match sort with
  | none => docs
  | some [] => docs
  | some l => docs.mergeSort (fun a b => decide (cmpDocs l a b ≤ 0))

/-- `projectFields` of adapter.ts: keep only the named fields that are
present, identity for an absent or empty field list. -/
def projectFields (d : Doc) (fields : Option (List String)) : Doc :=
  match fields with
  | none => d
  | some [] => d
  | some fs => fs.foldl (fun acc f => if hasField f d then setField acc f (getProp f d) else acc) []

/-- A hyper error value `HyperErr (msg, status)` (from the hyper-utils
dependency): it serialises as the envelope with `ok: false`. -/
structure HyperE where
  msg : String
  status : Nat
deriving Repr, DecidableEq

/-- A value flowing through the rejection channel: either a recognised
hyper error or a raw engine `Error` (carrying its message). -/
inductive ErrVal where
  | hyper (h : HyperE)
  | raw (msg : String)
deriving Repr, DecidableEq

/-- `isHyperErr` of hyper-utils. -/
def isHyperErr : ErrVal → Bool
  | .hyper _ => true
  | .raw _ => false

/-- The outcome of an operation's core `Async` computation before the two
`bichain` steps. -/
inductive Outcome (α : Type) where
  | resolved (v : α)
  | rejected (e : ErrVal)
deriving Repr, DecidableEq

/-- The value a settled operation promise resolves to: the success payload,
or a hyper error routed through the success channel. -/
inductive OpReturn (α : Type) where
  | ok (v : α)
  | err (h : HyperE)
deriving Repr, DecidableEq

/-- The promise an operation returns: `Except.error` is a rejected promise. -/
abbrev Promise (α : Type) := Except ErrVal (OpReturn α)

/-- `lmdbErrToHyperErr` of adapter.ts: wrap a raw engine error message as a
500 hyper error (with a context fallback for an empty message). -/
def lmdbErrToHyperErr (ctx : String) (m : String) : HyperE :=
  { msg := if m == "" then "An error occurred: " ++ ctx else m, status := 500 }

/-- The rejection arm of the first `bichain` in every operation of
adapter.ts: pass hyper errors through, convert anything else. -/
def normalizeErr (ctx : String) (e : ErrVal) : ErrVal :=
  if isHyperErr e then e
  else match e with
    | .raw m => .hyper (lmdbErrToHyperErr ctx m)
    | .hyper h => .hyper h

/-- `handleHyperErr` of adapter.ts: route hyper errors into the success
channel, keep anything else rejected. -/
def handleHyperErr {α : Type} (e : ErrVal) : Promise α :=
  if isHyperErr e then
    match e with
    | .hyper h => .ok (.err h)
    | .raw m => .error (.raw m)
  else .error e

/-- The full `bichain`/`bichain`/`toPromise` tail shared by every operation
of adapter.ts. -/
def finishOp {α : Type} (ctx : String) : Outcome α → Promise α
  | .resolved v => .ok (.ok v)
  | .rejected e => handleHyperErr (normalizeErr ctx e)

/-- The metadata record stored for a database alias. -/
structure DbInfo where
  name : String
  createdAt : String
deriving Repr, DecidableEq

/-- The metadata record stored for an index registration. -/
structure IndexRec where
  db : String
  fields : List SortKey
  partialFilter : Option Selector
  createdAt : String
deriving Repr, DecidableEq

/-- A value held in the meta database: database records live under `db:`
keys, index records under `index:` keys. -/
inductive MetaVal where
  | db (info : DbInfo)
  | idx (rec : IndexRec)
deriving Repr, DecidableEq

/-- The `name` field read off a meta record; index records never live under
`db:` keys, so their `name` (JS `undefined`) is never observed. -/
def MetaVal.nameOf : MetaVal → Option String
  | .db info => some info.name
  | .idx _ => none

/-- The adapter environment: the meta database, the open-handle cache
(`alias ↦ opened region name`), the root environment's regions
(`region name ↦ contents`), and a counter modelling the clock/randomness
consumed by `generateId` and `toISOString`. -/
structure Env where
  meta : List (String × MetaVal)
  dbs : List (String × String)
  stores : List (String × Store)
  fresh : Nat
deriving Repr, DecidableEq

/-- `getMetaKey` of adapter.ts. -/
def getMetaKey (dbName : String) : String := "db:" ++ dbName

/-- `generateId` of adapter.ts, with the timestamp-and-random source
modelled by the environment counter. -/
def generateId (fresh : Nat) : String := toString fresh

/-- The `toISOString` timestamp, modelled from the same counter. -/
def nowStamp (fresh : Nat) : String := "t" ++ toString fresh

/-- `resolveDbName` of adapter.ts: `meta.get(getMetaKey alias)?.name ?? null`. -/
def resolveDbName (env : Env) (dbAlias : String) : Option String :=
  match alGet env.meta (getMetaKey dbAlias) with
  | some mv => mv.nameOf
  | none => none

/-- `rootDb.openDB`: opening a region creates it (empty) when absent. -/
def openDB (env : Env) (name : String) : Env :=
  if env.stores.any (fun p => p.1 == name) then env
  else { env with stores := env.stores ++ [(name, [])] }

/-- `getDb` of adapter.ts: cache hit, else resolve the alias, open the
region and cache it; `none` when the alias has no mapping. -/
def getDb (env : Env) (dbAlias : String) : Option String × Env :=
  match alGet env.dbs dbAlias with
  | some name => (some name, env)
  | none =>
    match resolveDbName env dbAlias with
    | none => (none, env)
    | some actualName =>
      let env1 := openDB env actualName
      (some actualName, { env1 with dbs := alPut env1.dbs dbAlias actualName })

/-- Contents of a region by name (empty when the region is absent). -/
def regionEntries (env : Env) (name : String) : Store :=
  (alGet env.stores name).getD []

/-- Engine point `get` through a handle. -/
def regionGet (env : Env) (name k : String) : Option Doc :=
  storeGet (regionEntries env name) k

/-- Engine `put` through a handle. -/
def regionPutE (env : Env) (name k : String) (d : Doc) : Env :=
  { env with stores := alPut env.stores name (storePut (regionEntries env name) k d) }

/-- Engine `remove` through a handle. -/
def regionRemoveE (env : Env) (name k : String) : Env :=
  { env with stores := alPut env.stores name (storeRemove (regionEntries env name) k) }

/-- Engine region `drop`. -/
def dropRegion (env : Env) (name : String) : Env :=
  { env with stores := env.stores.filter (fun p => p.1 != name) }

/-- `createDatabase` of adapter.ts. -/
def createDatabase (env : Env) (name : String) : Promise Unit × Env :=
  match alGet env.meta (getMetaKey name) with
  | some _ =>
    (finishOp "createDatabase" (.rejected (.hyper ⟨"database already exists", 409⟩)), env)
  | none =>
    let actualName := "db_" ++ generateId env.fresh
    let env1 := { env with
      meta := alPut env.meta (getMetaKey name) (.db ⟨actualName, nowStamp env.fresh⟩),
      fresh := env.fresh + 1 }
    let env2 := openDB env1 actualName
    let env3 := { env2 with dbs := alPut env2.dbs name actualName }
    (finishOp "createDatabase" (.resolved ()), env3)

/-- `removeDatabase` of adapter.ts. -/
def removeDatabase (env : Env) (name : String) : Promise Unit × Env :=
  match alGet env.meta (getMetaKey name) with
  | none =>
    (finishOp "removeDatabase" (.rejected (.hyper ⟨"database not found", 404⟩)), env)
  | some info =>
    let env1 :=
      match alGet env.dbs name with
      | some handleName =>
        { (dropRegion env handleName) with dbs := alErase env.dbs name }
      | none =>
        let opened := openDB env ((info.nameOf).getD "")
        dropRegion opened ((info.nameOf).getD "")
    let env2 := { env1 with meta := alErase env1.meta (getMetaKey name) }
    (finishOp "removeDatabase" (.resolved ()), env2)

/-- The argument object of the document CRUD operations. -/
structure DocArgs where
  db : String
  id : String
  doc : Doc
deriving Repr, DecidableEq

/-- `createDocument` of adapter.ts: empty-document check first, then handle
resolution, then the conflict point-lookup, then the write. -/
def createDocument (env : Env) (args : DocArgs) : Promise String × Env :=
  if args.doc.isEmpty then
    (finishOp "createDocument" (.rejected (.hyper ⟨"document empty", 400⟩)), env)
  else
    match getDb env args.db with
    | (none, env1) =>
      (finishOp "createDocument" (.rejected (.hyper ⟨"database not found", 404⟩)), env1)
    | (some name, env1) =>
      match regionGet env1 name args.id with
      | some _ =>
        (finishOp "createDocument" (.rejected (.hyper ⟨"document conflict", 409⟩)), env1)
      | none =>
        (finishOp "createDocument" (.resolved args.id), regionPutE env1 name args.id args.doc)

/-- `retrieveDocument` of adapter.ts: the resolved payload is the stored
document itself. -/
def retrieveDocument (env : Env) (dbAlias id : String) : Promise Doc × Env :=
  match getDb env dbAlias with
  | (none, env1) =>
    (finishOp "retrieveDocument" (.rejected (.hyper ⟨"database not found", 404⟩)), env1)
  | (some name, env1) =>
    match regionGet env1 name id with
    | none =>
      (finishOp "retrieveDocument" (.rejected (.hyper ⟨"document not found", 404⟩)), env1)
    | some doc =>
      (finishOp "retrieveDocument" (.resolved doc), env1)

/-- `updateDocument` of adapter.ts: unconditional upsert. -/
def updateDocument (env : Env) (args : DocArgs) : Promise String × Env :=
  match getDb env args.db with
  | (none, env1) =>
    (finishOp "updateDocument" (.rejected (.hyper ⟨"database not found", 404⟩)), env1)
  | (some name, env1) =>
    (finishOp "updateDocument" (.resolved args.id), regionPutE env1 name args.id args.doc)

/-- `removeDocument` of adapter.ts: existence check then delete. -/
def removeDocument (env : Env) (dbAlias id : String) : Promise String × Env :=
  match getDb env dbAlias with
  | (none, env1) =>
    (finishOp "removeDocument" (.rejected (.hyper ⟨"database not found", 404⟩)), env1)
  | (some name, env1) =>
    match regionGet env1 name id with
    | none =>
      (finishOp "removeDocument" (.rejected (.hyper ⟨"document not found", 404⟩)), env1)
    | some _ =>
      (finishOp "removeDocument" (.resolved id), regionRemoveE env1 name id)

/-- The argument object of `listDocuments`. -/
structure ListArgs where
  db : String
  limit : Option Nat
  startkey : Option String
  endkey : Option String
  keys : Option String
  descending : Option Bool
deriving Repr, DecidableEq

/-- The truthiness guard `limit && docs.length >= limit` of the iteration
in `listDocuments`. -/
def limitHit : Option Nat → Nat → Bool
  | none, _ => false
  | some n, len => n != 0 && len ≥ n

/-- The `keysList && !keysList.includes(key)` guard of the iteration in
`listDocuments`. -/
def skipKey (keysList : Option (List String)) (key : String) : Bool :=
  match keysList with
  | some l => !l.contains key
  | none => false

/-- The iteration body of `listDocuments`: skip keys outside the allow-list,
append the merged entry, stop once the limit guard fires. -/
def listLoop (keysList : Option (List String)) (limit : Option Nat) :
    List (String × Doc) → List Doc → List Doc
  | [], docs => docs
  | (key, value) :: rest, docs =>
    if skipKey keysList key then
      listLoop keysList limit rest docs
    else
      let docs1 := docs ++ [mkEntry key value]
      if limitHit limit docs1.length then docs1
      else listLoop keysList limit rest docs1

/-- `listDocuments` of adapter.ts: build the range options (the supplied
`endkey` is extended with U+FFFF as the engine's exclusive bound; empty
option strings are falsy so leave the bound unset), then iterate. -/
def listDocuments (env : Env) (args : ListArgs) : Promise (List Doc) × Env :=
  match getDb env args.db with
  | (none, env1) =>
    (finishOp "listDocuments" (.rejected (.hyper ⟨"database not found", 404⟩)), env1)
  | (some name, env1) =>
    let keysList : Option (List String) :=
      match args.keys with
      | some s => if s == "" then none else some (s.splitOn ",")
      | none => none
    let rangeOptions : RangeOpts :=
      { start := match args.startkey with
          | some s => if s == "" then none else some s
          | none => none
        stop := match args.endkey with
          | some e => if e == "" then none else some (e ++ "\uFFFF")
          | none => none
        reverse := match args.descending with
          | some b => b
          | none => false }
    let docs := listLoop keysList args.limit (getRange (regionEntries env1 name) rangeOptions) []
    (finishOp "listDocuments" (.resolved docs), env1)

/-- The query object of `queryDocuments` (`use_index` is accepted and
ignored by the source). -/
structure Query where
  selector : Option Selector
  fields : Option (List String)
  sort : Option (List SortKey)
  limit : Option Nat
  skip : Option Nat
  useIndex : Option String
deriving Repr, DecidableEq

/-- The full-scan filter loop of `queryDocuments`: skip documents the
selector rejects, push the merged entry. -/
def queryScan (sel : Option Selector) : List (String × Doc) → List Doc
  | [] => []
  | (key, value) :: rest =>
    if (match sel with | some s => !matchesSelector value s | none => false) then
      queryScan sel rest
    else mkEntry key value :: queryScan sel rest

/-- `queryDocuments` of adapter.ts: scan-filter, sort, then the truthiness-
guarded skip, limit and projection steps. -/
def queryDocuments (env : Env) (dbAlias : String) (q : Query) : Promise (List Doc) × Env :=
  match getDb env dbAlias with
  | (none, env1) =>
    (finishOp "queryDocuments" (.rejected (.hyper ⟨"database not found", 404⟩)), env1)
  | (some name, env1) =>
    let docs0 := queryScan q.selector (getRange (regionEntries env1 name) ⟨none, none, false⟩)
    let docs1 := sortDocs docs0 q.sort
    let docs2 := match q.skip with
      | some k => if k ≠ 0 then docs1.drop k else docs1
      | none => docs1
    let docs3 := match q.limit with
      | some n => if n ≠ 0 then docs2.take n else docs2
      | none => docs2
    let docs4 := match q.fields with
      | some fs => if fs.length > 0 then docs3.map (fun d => projectFields d (some fs)) else docs3
      | none => docs3
    (finishOp "queryDocuments" (.resolved docs4), env1)

/-- `indexDocuments` of adapter.ts: resolve the handle, then write the index
metadata record under `index:` into the meta database. -/
def indexDocuments (env : Env) (dbAlias name : String) (fields : List SortKey)
    (partialFilter : Option Selector) : Promise Unit × Env :=
  match getDb env dbAlias with
  | (none, env1) =>
    (finishOp "indexDocuments" (.rejected (.hyper ⟨"database not found", 404⟩)), env1)
  | (some _, env1) =>
    let env2 := { env1 with
      meta := alPut env1.meta ("index:" ++ name)
        (.idx ⟨dbAlias, fields, partialFilter, nowStamp env1.fresh⟩) }
    (finishOp "indexDocuments" (.resolved ()), env2)

/-- One entry of the bulk per-item results array. -/
structure BulkItem where
  ok : Bool
  id : String
  msg : Option String
deriving Repr, DecidableEq

/-- The transaction body of `bulkDocuments`: for each document in order,
record a failure for a falsy `_id` and continue, otherwise upsert and record
success.  The engine's per-item `put` cannot fail in the pure model, so the
per-item catch branch is unreachable here. -/
def bulkLoop (s : Store) : List Doc → List BulkItem × Store
  | [] => ([], s)
  | doc :: rest =>
    let idv := getProp "_id" doc
    if jsFalsy idv then
      let (items, s1) := bulkLoop s rest
      (⟨false, "", some "document missing _id"⟩ :: items, s1)
    else
      let (items, s1) := bulkLoop (storePut s (keyOfId idv) doc) rest
      (⟨true, keyOfId idv, none⟩ :: items, s1)

/-- `bulkDocuments` of adapter.ts: all writes inside one engine transaction,
the outer result always carrying the per-item array. -/
def bulkDocuments (env : Env) (dbAlias : String) (docs : List Doc) :
    Promise (List BulkItem) × Env :=
  match getDb env dbAlias with
  | (none, env1) =>
    (finishOp "bulkDocuments" (.rejected (.hyper ⟨"database not found", 404⟩)), env1)
  | (some name, env1) =>
    let (results, s1) := bulkLoop (regionEntries env1 name) docs
    let env2 := { env1 with stores := alPut env1.stores name s1 }
    (finishOp "bulkDocuments" (.resolved results), env2)

/-- Modelled from the claim C5's words: the fixed pipeline
filter → sort → skip → limit → projection, each stage applied
unconditionally from the supplied options. -/
def querySpecPipeline (entries : Store) (q : Query) : List Doc :=
  let filtered := (entries.filter (fun p =>
      match q.selector with
      | some sel => matchesSelector p.2 sel
      | none => true)).map (fun p => mkEntry p.1 p.2)
  let sorted := sortDocs filtered q.sort
  let skipped := match q.skip with | some k => sorted.drop k | none => sorted
  let limited := match q.limit with | some n => skipped.take n | none => skipped
  match q.fields with
  | some fs => limited.map (fun d => projectFields d (some fs))
  | none => limited

/-- Modelled from the claim C6's words, one sort key: a null or undefined
value orders before any present value (two nullish values tie), strings by
locale ordering, numbers by difference, `DESC` negating this key's result. -/
def cmpKeyClaim (sk : SortKey) (a b : Doc) : Int :=
  let aVal := getProp sk.fieldOf a
  let bVal := getProp sk.fieldOf b
  let cmp : Int :=
    if isNullish aVal && isNullish bVal then 0
    else if isNullish aVal then -1
    else if isNullish bVal then 1
    else
      match aVal, bVal with
      | .str x, .str y => localeCompare x y
      | .num x, .num y => x - y
      | _, _ => 0
  if sk.dirOf = .desc then -cmp else cmp

/-- Modelled from the claim C6's words, whole comparator: examine the sort
keys left to right, moving to the next key exactly when the two documents
tie on the current key. -/
def cmpDocsClaim (sort : List SortKey) (a b : Doc) : Int :=
  match sort with
  | [] => 0
  | sk :: rest =>
    let c := cmpKeyClaim sk a b
    if c = 0 then cmpDocsClaim rest a b else c

/-- The single-key comparison the code actually performs once the two
values are not strictly equal (claim C6, amended). -/
def cmpKeyCode (sk : SortKey) (a b : Doc) : Int :=
  let aVal := getProp sk.fieldOf a
  let bVal := getProp sk.fieldOf b
  let cmp : Int :=
    if isNullish aVal then -1
    else if isNullish bVal then 1
    else
      match aVal, bVal with
      | .str x, .str y => localeCompare x y
      | .num x, .num y => x - y
      | _, _ => 0
  if sk.dirOf = .desc then -cmp else cmp

/-- The amended description of the code comparator (claim C6): it returns
at the first sort key whose two values are not strictly equal, and ties
across all keys only when every key's values are strictly equal. -/
def cmpDocsAmended (sort : List SortKey) (a b : Doc) : Int :=
  match sort.find? (fun sk => !valEq (getProp sk.fieldOf a) (getProp sk.fieldOf b)) with
  | none => 0
  | some sk => cmpKeyCode sk a b

/-- Number of documents a settled list/query promise carries (0 when the
promise carries an error envelope or was rejected). -/
def promDocsLength (p : Promise (List Doc)) : Nat :=
  match p with
  | .ok (.ok docs) => docs.length
  | _ => 0

/-! Helper lemmas about the embedded primitives. -/

theorem alGet_alPut_self {α : Type} (m : List (String × α)) (k : String) (v : α) :
    alGet (alPut m k v) k = some v := by
  induction m with
  | nil => simp [alPut, alGet]
  | cons p rest ih =>
    by_cases hp : (p.1 == k) = true
    · simp [alPut, hp, alGet]
    · simp only [alPut, hp, if_false, Bool.false_eq_true]
      simpa [alGet, hp] using ih

theorem alGet_alErase_self {α : Type} (m : List (String × α)) (k : String) :
    alGet (alErase m k) k = none := by
  induction m with
  | nil => rfl
  | cons p rest ih =>
    by_cases hp : (p.1 == k) = true
    · have hk : p.1 = k := by simpa using hp
      simpa [alErase, List.filter_cons, hk] using ih
    · have hk : ¬ p.1 = k := by simpa using hp
      simpa [alErase, List.filter_cons, alGet, hk, hp] using ih

theorem storeGet_storePut_self (s : Store) (k : String) (d : Doc) :
    storeGet (storePut s k d) k = some d := by
  induction s with
  | nil => simp [storePut, storeGet]
  | cons p rest ih =>
    by_cases hp : (k == p.1) = true
    · simp [storePut, hp, storeGet]
    · by_cases hlt : keyLt k p.1 = true
      · simp [storePut, hp, hlt, storeGet]
      · have hk : ¬ k = p.1 := by simpa using hp
        have hne : (p.1 == k) = false := by
          apply beq_eq_false_iff_ne.mpr
          intro he
          exact hk he.symm
        simpa [storePut, hp, hlt, storeGet, hne] using ih

theorem getDb_dbs_some (env : Env) (a n : String) (env1 : Env)
    (h : getDb env a = (some n, env1)) : alGet env1.dbs a = some n := by
  unfold getDb at h
  cases hc : alGet env.dbs a with
  | some m =>
    rw [hc] at h
    cases h
    exact hc
  | none =>
    rw [hc] at h
    cases hr : resolveDbName env a with
    | none => rw [hr] at h; cases h
    | some actual =>
      rw [hr] at h
      cases h
      exact alGet_alPut_self _ _ _

theorem getDb_cached (env : Env) (a n : String) (h : alGet env.dbs a = some n) :
    getDb env a = (some n, env) := by
  unfold getDb
  rw [h]

theorem listLoop_nolimit :
    ∀ (l : List (String × Doc)) (acc : List Doc),
      listLoop none none l acc = acc ++ l.map (fun p => mkEntry p.1 p.2) := by
  intro l
  induction l with
  | nil => intro acc; simp [listLoop]
  | cons p rest ih =>
    intro acc
    simp only [listLoop, limitHit, skipKey]
    rw [ih (acc ++ [mkEntry p.1 p.2])]
    simp

theorem listLoop_length_le (kl : Option (List String)) (n : Nat) (hn : 0 < n) :
    ∀ (l : List (String × Doc)) (acc : List Doc), acc.length < n →
      (listLoop kl (some n) l acc).length ≤ n := by
  intro l
  induction l with
  | nil => intro acc h; simpa [listLoop] using Nat.le_of_lt h
  | cons p rest ih =>
    intro acc h
    simp only [listLoop]
    by_cases hskip : skipKey kl p.1 = true
    · rw [if_pos hskip]
      exact ih acc h
    · rw [if_neg hskip]
      by_cases hstop : limitHit (some n) (acc ++ [mkEntry p.1 p.2]).length = true
      · rw [if_pos hstop]
        simpa using h
      · rw [if_neg hstop]
        apply ih
        simp only [limitHit, List.length_append, List.length_singleton] at hstop ⊢
        rcases Nat.lt_or_ge (acc.length + 1) n with hlt | hge
        · exact hlt
        · exfalso
          apply hstop
          have hne : (n != 0) = true := by simp; omega
          simp [hne]
          omega

theorem queryScan_none :
    ∀ (l : List (String × Doc)), queryScan none l = l.map (fun p => mkEntry p.1 p.2) := by
  intro l
  induction l with
  | nil => rfl
  | cons p rest ih => simp [queryScan, ih]

theorem queryScan_some (sel : Selector) :
    ∀ (l : List (String × Doc)),
      queryScan (some sel) l =
        (l.filter (fun p => matchesSelector p.2 sel)).map (fun p => mkEntry p.1 p.2) := by
  intro l
  induction l with
  | nil => rfl
  | cons p rest ih =>
    by_cases hm : matchesSelector p.2 sel = true
    · simp [queryScan, hm, List.filter_cons, ih]
    · have hm' : matchesSelector p.2 sel = false := by simpa using hm
      simp [queryScan, hm', List.filter_cons, ih]

theorem getProp_setField_self (f : String) (v : Value) :
    ∀ (d : Doc), getProp f (setField d f v) = v := by
  intro d
  induction d with
  | nil => simp [setField, getProp]
  | cons p rest ih =>
    by_cases hp : (p.1 == f) = true
    · simp [setField, hp, getProp]
    · simp only [setField, hp, Bool.false_eq_true, if_false]
      simpa [getProp, hp] using ih

theorem getProp_setField_ne (f g : String) (v : Value) (hne : g ≠ f) :
    ∀ (d : Doc), getProp g (setField d f v) = getProp g d := by
  intro d
  have hfg : (f == g) = false := by
    apply beq_eq_false_iff_ne.mpr
    intro he
    exact hne he.symm
  induction d with
  | nil => simp [setField, getProp, hfg]
  | cons p rest ih =>
    by_cases hp : (p.1 == f) = true
    · have hpf : p.1 = f := by simpa using hp
      have hpg : (p.1 == g) = false := by
        apply beq_eq_false_iff_ne.mpr
        rw [hpf]
        intro he
        exact hne he.symm
      simp [setField, hp, getProp, hfg, hpg]
    · simp only [setField, hp, Bool.false_eq_true, if_false]
      by_cases hpg : (p.1 == g) = true
      · simp [getProp, hpg]
      · simpa [getProp, hpg] using ih

theorem hasField_cons (f : String) (p : String × Value) (rest : Doc) :
    hasField f (p :: rest) = ((p.1 == f) || hasField f rest) := by
  simp [hasField]

theorem getProp_objSpread (f : String) :
    ∀ (over base : Doc), keysNodup over →
      getProp f (objSpread base over) =
        if hasField f over then getProp f over else getProp f base := by
  intro over
  induction over with
  | nil =>
    intro base _
    simp [objSpread, hasField, getProp]
  | cons p rest ih =>
    intro base hnd
    rcases p with ⟨k, v⟩
    have hnd' : keysNodup rest := (List.nodup_cons.mp hnd).2
    have hnotin : k ∉ rest.map Prod.fst := (List.nodup_cons.mp hnd).1
    have hstep : objSpread base ((k, v) :: rest) = objSpread (setField base k v) rest := rfl
    rw [hstep, ih (setField base k v) hnd']
    by_cases hf : hasField f rest = true
    · have hkf : (k == f) = false := by
        apply beq_eq_false_iff_ne.mpr
        intro he
        rcases List.any_eq_true.mp hf with ⟨x, hx, hxf⟩
        have hx1 : x.1 = f := by simpa using hxf
        exact hnotin (by
          rw [he]
          exact hx1 ▸ List.mem_map_of_mem Prod.fst hx)
      simp [hf, hasField_cons, hkf, getProp]
    · have hf' : hasField f rest = false := by simpa using hf
      by_cases hkf : (k == f) = true
      · have hk : k = f := by simpa using hkf
        subst hk
        simp [hf', hasField_cons, getProp, getProp_setField_self]
      · have hne : f ≠ k := by
          intro he
          exact (by simpa using hkf : ¬ k = f) he.symm
        simp [hf', hasField_cons, hkf, getProp, getProp_setField_ne k f v hne]

theorem charListLt_self_append :
    ∀ (l : List Char) (c : Char) (cs : List Char), charListLt l (l ++ c :: cs) = true := by
  intro l c cs
  induction l with
  | nil => rfl
  | cons a as ih => simpa [charListLt] using ih

theorem keyLt_self_append_uffff (e : String) : keyLt e (e ++ "￿") = true := by
  have hdata : (e ++ "￿").data = e.data ++ ['￿'] := rfl
  unfold keyLt
  rw [hdata]
  exact charListLt_self_append e.data _ []

theorem cmpDocs_eq_cmpDocsAmended :
    ∀ (sort : List SortKey) (a b : Doc), cmpDocs sort a b = cmpDocsAmended sort a b := by
  intro sort a b
  induction sort with
  | nil => rfl
  | cons sk rest ih =>
    by_cases hv : valEq (getProp sk.fieldOf a) (getProp sk.fieldOf b) = true
    · have hstep : cmpDocs (sk :: rest) a b = cmpDocs rest a b := by
        simp only [cmpDocs]
        rw [if_pos hv]
      rw [hstep, ih]
      unfold cmpDocsAmended
      rw [List.find?_cons_of_neg _ (by simp [hv])]
    · have hv' : valEq (getProp sk.fieldOf a) (getProp sk.fieldOf b) = false := by
        simpa using hv
      have hstep : cmpDocs (sk :: rest) a b = cmpKeyCode sk a b := by
        simp only [cmpDocs, cmpKeyCode]
        rw [if_neg hv]
      rw [hstep]
      unfold cmpDocsAmended
      rw [List.find?_cons_of_pos _ (by simp [hv'])]

theorem regionGet_regionPutE_self (env : Env) (name k : String) (d : Doc) :
    regionGet (regionPutE env name k d) name k = some d := by
  unfold regionGet regionPutE regionEntries
  simp only [alGet_alPut_self, Option.getD_some]
  exact storeGet_storePut_self _ _ _

theorem regionPutE_dbs (env : Env) (name k : String) (d : Doc) :
    (regionPutE env name k d).dbs = env.dbs := rfl

/-- An environment with nothing created yet. -/
def emptyEnv : Env := ⟨[], [], [], 0⟩

/-- An environment with one namespace `mydb` (backed by region `db_0`,
already cached) holding the given contents. -/
def sampleEnv (s : Store) : Env :=
  ⟨[("db:mydb", .db ⟨"db_0", "t0"⟩)], [("mydb", "db_0")], [("db_0", s)], 1⟩

/-- The generic resolution fact behind claim C9: the shared
`bichain`/`bichain`/`toPromise` tail never leaves a promise rejected. -/
theorem finishOp_always_ok {α : Type} (ctx : String) (o : Outcome α) :
    ∃ v, finishOp ctx o = Except.ok v := by
  cases o with
  | resolved v => exact ⟨.ok v, rfl⟩
  | rejected e =>
    cases e with
    | hyper h => exact ⟨.err h, rfl⟩
    | raw m => exact ⟨.err (lmdbErrToHyperErr ctx m), rfl⟩

/-- C2 (counterexample): calling `createDocument` with an empty document on
an alias that has no metadata mapping and no cached handle returns the
BadRequest 400 envelope, not the NotFound 404 envelope the claim expects —
the empty-document check runs before handle resolution. -/
theorem c2_empty_doc_unknown_db_counterexample :
    (createDocument emptyEnv ⟨"missing", "doc-1", []⟩).1
      = Except.ok (.err ⟨"document empty", 400⟩)
    ∧ (⟨"document empty", 400⟩ : HyperE) ≠ ⟨"database not found", 404⟩ := by
  constructor
  · rfl
  · decide

/-- C2 (amended): when the alias has no metadata mapping and no cached
handle, `createDocument` returns BadRequest 400 for an empty document (the
empty-document check precedes handle resolution) and NotFound 404 for any
non-empty document. -/
theorem c2_create_on_unresolved_alias (env : Env) (a i : String) (d : Doc)
    (hcache : alGet env.dbs a = none)
    (hmeta : alGet env.meta (getMetaKey a) = none) :
    (createDocument env ⟨a, i, d⟩).1 =
      if d.isEmpty then Except.ok (.err ⟨"document empty", 400⟩)
      else Except.ok (.err ⟨"database not found", 404⟩) := by
  have hgd : getDb env a = (none, env) := by
    unfold getDb resolveDbName
    rw [hcache, hmeta]
  by_cases hd : d.isEmpty = true
  · rw [if_pos hd]
    unfold createDocument
    rw [if_pos hd]
    rfl
  · rw [if_neg hd]
    unfold createDocument
    rw [if_neg hd, hgd]
    rfl

/-- C2 (witness): the amended theorem at `emptyEnv` with a one-field
document. -/
theorem c2_create_on_unresolved_alias_witness :
    (createDocument emptyEnv ⟨"missing", "doc-1", [("x", Value.num 1)]⟩).1 =
      if ([("x", Value.num 1)] : Doc).isEmpty then Except.ok (.err ⟨"document empty", 400⟩)
      else Except.ok (.err ⟨"database not found", 404⟩) :=
  c2_create_on_unresolved_alias emptyEnv "missing" "doc-1" [("x", Value.num 1)] rfl rfl

theorem openDB_meta (env : Env) (name : String) : (openDB env name).meta = env.meta := by
  unfold openDB
  split <;> rfl

theorem openDB_dbs (env : Env) (name : String) : (openDB env name).dbs = env.dbs := by
  unfold openDB
  split <;> rfl

theorem createDatabase_fst (env : Env) (a : String)
    (hmeta : alGet env.meta (getMetaKey a) = none) :
    (createDatabase env a).1 = Except.ok (.ok ()) := by
  unfold createDatabase
  rw [hmeta]
  rfl

theorem createDatabase_snd_meta (env : Env) (a : String)
    (hmeta : alGet env.meta (getMetaKey a) = none) :
    (createDatabase env a).2.meta =
      alPut env.meta (getMetaKey a)
        (.db ⟨"db_" ++ generateId env.fresh, nowStamp env.fresh⟩) := by
  unfold createDatabase
  rw [hmeta]
  simp only [openDB_meta]

theorem createDatabase_snd_dbs (env : Env) (a : String)
    (hmeta : alGet env.meta (getMetaKey a) = none) :
    (createDatabase env a).2.dbs = alPut env.dbs a ("db_" ++ generateId env.fresh) := by
  unfold createDatabase
  rw [hmeta]
  simp only [openDB_dbs]

theorem createDatabase_conflict (env : Env) (a : String) (mv : MetaVal)
    (hmeta : alGet env.meta (getMetaKey a) = some mv) :
    (createDatabase env a).1 = Except.ok (.err ⟨"database already exists", 409⟩) := by
  unfold createDatabase
  rw [hmeta]
  rfl

theorem removeDatabase_fst (env : Env) (a : String) (mv : MetaVal)
    (hmeta : alGet env.meta (getMetaKey a) = some mv) :
    (removeDatabase env a).1 = Except.ok (.ok ()) := by
  unfold removeDatabase
  rw [hmeta]
  rfl

theorem removeDatabase_snd_meta (env : Env) (a nm : String) (mv : MetaVal)
    (hmeta : alGet env.meta (getMetaKey a) = some mv)
    (hcache : alGet env.dbs a = some nm) :
    (removeDatabase env a).2.meta = alErase env.meta (getMetaKey a) := by
  unfold removeDatabase
  rw [hmeta, hcache]
  rfl

/-- C7: starting from a state with no metadata record for alias `a`,
creating `a` succeeds, creating it again yields the Conflict 409 envelope,
while creating, removing and creating again ends in success. -/
theorem c7_create_remove_create (env : Env) (a : String)
    (hmeta : alGet env.meta (getMetaKey a) = none) :
    (createDatabase env a).1 = Except.ok (.ok ())
    ∧ (createDatabase (createDatabase env a).2 a).1
        = Except.ok (.err ⟨"database already exists", 409⟩)
    ∧ (removeDatabase (createDatabase env a).2 a).1 = Except.ok (.ok ())
    ∧ (createDatabase (removeDatabase (createDatabase env a).2 a).2 a).1
        = Except.ok (.ok ()) := by
  have hmeta1 : alGet (createDatabase env a).2.meta (getMetaKey a)
      = some (.db ⟨"db_" ++ generateId env.fresh, nowStamp env.fresh⟩) := by
    rw [createDatabase_snd_meta env a hmeta]
    exact alGet_alPut_self _ _ _
  have hdbs1 : alGet (createDatabase env a).2.dbs a = some ("db_" ++ generateId env.fresh) := by
    rw [createDatabase_snd_dbs env a hmeta]
    exact alGet_alPut_self _ _ _
  have hmeta2 : alGet (removeDatabase (createDatabase env a).2 a).2.meta (getMetaKey a) = none := by
    rw [removeDatabase_snd_meta (createDatabase env a).2 a _ _ hmeta1 hdbs1]
    exact alGet_alErase_self _ _
  exact ⟨createDatabase_fst env a hmeta, createDatabase_conflict _ a _ hmeta1,
    removeDatabase_fst _ a _ hmeta1, createDatabase_fst _ a hmeta2⟩

/-- C7 (witness): the theorem at the empty environment and alias `mydb`. -/
theorem c7_create_remove_create_witness :
    (createDatabase emptyEnv "mydb").1 = Except.ok (.ok ())
    ∧ (createDatabase (createDatabase emptyEnv "mydb").2 "mydb").1
        = Except.ok (.err ⟨"database already exists", 409⟩)
    ∧ (removeDatabase (createDatabase emptyEnv "mydb").2 "mydb").1 = Except.ok (.ok ())
    ∧ (createDatabase (removeDatabase (createDatabase emptyEnv "mydb").2 "mydb").2 "mydb").1
        = Except.ok (.ok ()) :=
  c7_create_remove_create emptyEnv "mydb" rfl

/-- C9: every operation settles its promise with a value — the shared
pipeline resolves every outcome, raw engine failures are converted to the
500 envelope, and each of the ten operations' promises is resolved on every
input in the model. -/
theorem c9_boundary_is_always_a_value :
    (∀ (α : Type) (ctx : String) (o : Outcome α), ∃ v, finishOp ctx o = Except.ok v)
    ∧ (∀ (α : Type) (ctx m : String),
        finishOp ctx ((Outcome.rejected (.raw m)) : Outcome α)
          = Except.ok (.err (lmdbErrToHyperErr ctx m)))
    ∧ (∀ (ctx m : String), (lmdbErrToHyperErr ctx m).status = 500)
    ∧ (∀ (env : Env) (n : String), ∃ v, (createDatabase env n).1 = Except.ok v)
    ∧ (∀ (env : Env) (n : String), ∃ v, (removeDatabase env n).1 = Except.ok v)
    ∧ (∀ (env : Env) (args : DocArgs), ∃ v, (createDocument env args).1 = Except.ok v)
    ∧ (∀ (env : Env) (a i : String), ∃ v, (retrieveDocument env a i).1 = Except.ok v)
    ∧ (∀ (env : Env) (args : DocArgs), ∃ v, (updateDocument env args).1 = Except.ok v)
    ∧ (∀ (env : Env) (a i : String), ∃ v, (removeDocument env a i).1 = Except.ok v)
    ∧ (∀ (env : Env) (args : ListArgs), ∃ v, (listDocuments env args).1 = Except.ok v)
    ∧ (∀ (env : Env) (a : String) (q : Query), ∃ v, (queryDocuments env a q).1 = Except.ok v)
    ∧ (∀ (env : Env) (a n : String) (fs : List SortKey) (pf : Option Selector),
        ∃ v, (indexDocuments env a n fs pf).1 = Except.ok v)
    ∧ (∀ (env : Env) (a : String) (ds : List Doc), ∃ v, (bulkDocuments env a ds).1 = Except.ok v) := by
  refine ⟨fun α ctx o => finishOp_always_ok ctx o, fun α ctx m => rfl, fun ctx m => rfl,
    ?_, ?_, ?_, ?_, ?_, ?_, ?_, ?_, ?_, ?_⟩
  · intro env n
    unfold createDatabase
    split <;> exact ⟨_, rfl⟩
  · intro env n
    unfold removeDatabase
    split <;> exact ⟨_, rfl⟩
  · intro env args
    unfold createDocument
    split
    · exact ⟨_, rfl⟩
    · split
      · exact ⟨_, rfl⟩
      · split <;> exact ⟨_, rfl⟩
  · intro env a i
    unfold retrieveDocument
    split
    · exact ⟨_, rfl⟩
    · split <;> exact ⟨_, rfl⟩
  · intro env args
    unfold updateDocument
    split <;> exact ⟨_, rfl⟩
  · intro env a i
    unfold removeDocument
    split
    · exact ⟨_, rfl⟩
    · split <;> exact ⟨_, rfl⟩
  · intro env args
    unfold listDocuments
    split <;> exact ⟨_, rfl⟩
  · intro env a q
    unfold queryDocuments
    split <;> exact ⟨_, rfl⟩
  · intro env a n fs pf
    unfold indexDocuments
    split <;> exact ⟨_, rfl⟩
  · intro env a ds
    unfold bulkDocuments
    split <;> exact ⟨_, rfl⟩

theorem listLoop_limit_zero (kl : Option (List String)) :
    ∀ (l : List (String × Doc)) (acc : List Doc),
      listLoop kl (some 0) l acc = listLoop kl none l acc := by
  intro l
  induction l with
  | nil => intro acc; rfl
  | cons p rest ih =>
    intro acc
    simp only [listLoop]
    by_cases hskip : skipKey kl p.1 = true
    · rw [if_pos hskip, if_pos hskip, ih]
    · rw [if_neg hskip, if_neg hskip]
      rw [if_neg (by simp [limitHit] :
        ¬ limitHit (some 0) (acc ++ [mkEntry p.1 p.2]).length = true)]
      rw [if_neg (by simp [limitHit] :
        ¬ limitHit none (acc ++ [mkEntry p.1 p.2]).length = true)]
      exact ih _

/-- C3 (counterexample): a supplied limit of 0 is falsy, so no cap is
applied at all — a namespace holding one document returns that document,
which is more than 0. -/
theorem c3_limit_zero_counterexample :
    (listDocuments (sampleEnv [("a", [("v", Value.num 1)])])
        ⟨"mydb", some 0, none, none, none, none⟩).1
      = Except.ok (.ok [mkEntry "a" [("v", Value.num 1)]])
    ∧ promDocsLength (listDocuments (sampleEnv [("a", [("v", Value.num 1)])])
        ⟨"mydb", some 0, none, none, none, none⟩).1 = 1
    ∧ ¬ (1 ≤ 0) := by
  refine ⟨rfl, rfl, by decide⟩

/-- C3 (amended): for every supplied positive limit, listDocuments and
queryDocuments return at most that many documents; a supplied limit of 0 is
falsy, and such a call behaves exactly as the same call with no limit
supplied — the cap stage is skipped while every other stage (including
skip) applies unchanged. -/
theorem c3_positive_limit_caps (env env2 env3 env4 : Env) (la la0 : ListArgs)
    (a2 a3 : String) (q q0 : Query) (n : Nat)
    (hl : la.limit = some n) (hq : q.limit = some n) (hn : 0 < n)
    (hl0 : la0.limit = some 0) (hq0 : q0.limit = some 0) :
    promDocsLength (listDocuments env la).1 ≤ n
    ∧ promDocsLength (queryDocuments env2 a2 q).1 ≤ n
    ∧ listDocuments env3 la0 = listDocuments env3 { la0 with limit := none }
    ∧ queryDocuments env4 a3 q0 = queryDocuments env4 a3 { q0 with limit := none } := by
  refine ⟨?_, ?_, ?_, ?_⟩
  · unfold listDocuments
    split
    · exact Nat.zero_le n
    · dsimp only [promDocsLength, finishOp]
      rw [hl]
      exact listLoop_length_le _ n hn _ [] (by simpa using hn)
  · unfold queryDocuments
    split
    · exact Nat.zero_le n
    · have hne : n ≠ 0 := Nat.pos_iff_ne_zero.mp hn
      dsimp only [promDocsLength, finishOp]
      rw [hq]
      dsimp only
      rw [if_pos hne]
      rcases hf : q.fields with _ | fs
      · dsimp only
        exact List.length_take_le n _
      · dsimp only
        split
        · rw [List.length_map]
          exact List.length_take_le n _
        · exact List.length_take_le n _
  · unfold listDocuments
    dsimp only
    rcases hg : getDb env3 la0.db with ⟨o, env1⟩
    rcases o with _ | nm
    · rfl
    · dsimp only
      rw [hl0, listLoop_limit_zero]
  · unfold queryDocuments
    dsimp only
    rcases hg : getDb env4 a3 with ⟨o, env1⟩
    rcases o with _ | nm
    · rfl
    · dsimp only
      rw [hq0]
      simp

/-- C3 (witness): the amended theorem at a one-document namespace, with
limit 1 for the cap conjuncts and limit 0 (alongside a nonzero skip) for
the no-limit-equivalence conjuncts. -/
theorem c3_positive_limit_caps_witness :
    promDocsLength (listDocuments (sampleEnv [("a", [("v", Value.num 1)])])
        ⟨"mydb", some 1, none, none, none, none⟩).1 ≤ 1
    ∧ promDocsLength (queryDocuments (sampleEnv [("a", [("v", Value.num 1)])]) "mydb"
        ⟨none, none, none, some 1, none, none⟩).1 ≤ 1
    ∧ listDocuments (sampleEnv [("a", [("v", Value.num 1)])])
        ⟨"mydb", some 0, none, none, none, none⟩
      = listDocuments (sampleEnv [("a", [("v", Value.num 1)])])
        ⟨"mydb", none, none, none, none, none⟩
    ∧ queryDocuments (sampleEnv [("a", [("v", Value.num 1)])]) "mydb"
        ⟨none, none, none, some 0, some 1, none⟩
      = queryDocuments (sampleEnv [("a", [("v", Value.num 1)])]) "mydb"
        ⟨none, none, none, none, some 1, none⟩ :=
  c3_positive_limit_caps (sampleEnv [("a", [("v", Value.num 1)])])
    (sampleEnv [("a", [("v", Value.num 1)])])
    (sampleEnv [("a", [("v", Value.num 1)])])
    (sampleEnv [("a", [("v", Value.num 1)])])
    ⟨"mydb", some 1, none, none, none, none⟩
    ⟨"mydb", some 0, none, none, none, none⟩ "mydb" "mydb"
    ⟨none, none, none, some 1, none, none⟩
    ⟨none, none, none, some 0, some 1, none⟩ 1 rfl rfl (by decide) rfl rfl

/-- C4 (counterexample): a bulk call with one identifier-less item and two
valid items stores the per-item message `document missing _id`, not the
`missing id` the claim states. -/
theorem c4_bulk_msg_counterexample :
    (bulkDocuments (sampleEnv []) "mydb"
        [[("x", Value.num 1)], [("_id", Value.str "b2")], [("_id", Value.str "b3"), ("y", Value.num 2)]]).1
      = Except.ok (.ok [⟨false, "", some "document missing _id"⟩,
          ⟨true, "b2", none⟩, ⟨true, "b3", none⟩])
    ∧ (some "document missing _id" : Option String) ≠ some "missing id" := by
  refine ⟨rfl, by decide⟩

/-- C4 (amended): for a bulk call on an existing namespace with one
identifier-less document and two identified documents, the outer result is
success with exactly three per-item entries in input order — the
identifier-less entry being `ok:false, id:'', msg:'document missing _id'`
and the other two `ok:true` with their ids. -/
theorem c4_bulk_per_item_results (env : Env) (a nm : String) (env1 : Env)
    (d1 d2 d3 : Doc) (i2 i3 : String)
    (hdb : getDb env a = (some nm, env1))
    (h1 : jsFalsy (getProp "_id" d1) = true)
    (h2 : getProp "_id" d2 = .str i2) (hi2 : i2 ≠ "")
    (h3 : getProp "_id" d3 = .str i3) (hi3 : i3 ≠ "") :
    (bulkDocuments env a [d1, d2, d3]).1 =
      Except.ok (.ok [⟨false, "", some "document missing _id"⟩,
        ⟨true, i2, none⟩, ⟨true, i3, none⟩]) := by
  have hb2 : (i2 == "") = false := beq_eq_false_iff_ne.mpr hi2
  have hb3 : (i3 == "") = false := beq_eq_false_iff_ne.mpr hi3
  have hloop : bulkLoop (regionEntries env1 nm) [d1, d2, d3]
      = ([⟨false, "", some "document missing _id"⟩, ⟨true, i2, none⟩, ⟨true, i3, none⟩],
         storePut (storePut (regionEntries env1 nm) i2 d2) i3 d3) := by
    simp only [bulkLoop, h1, h2, h3, if_true]
    simp only [jsFalsy, keyOfId, hb2, hb3]
    simp
  unfold bulkDocuments
  rw [hdb]
  dsimp only
  rw [hloop]
  rfl

/-- C4 (witness): the amended theorem at a concrete empty namespace with
concrete documents. -/
theorem c4_bulk_per_item_results_witness :
    (bulkDocuments (sampleEnv []) "mydb"
        [[("x", Value.num 9)], [("_id", Value.str "u2")], [("_id", Value.str "u3")]]).1 =
      Except.ok (.ok [⟨false, "", some "document missing _id"⟩,
        ⟨true, "u2", none⟩, ⟨true, "u3", none⟩]) :=
  c4_bulk_per_item_results (sampleEnv []) "mydb" "db_0" (sampleEnv [])
    [("x", Value.num 9)] [("_id", Value.str "u2")] [("_id", Value.str "u3")] "u2" "u3"
    rfl rfl rfl (by decide) rfl (by decide)

/-- C1 (counterexample): with documents under keys `doc-2` and `doc-20` and
endkey `doc-2`, the listing also returns `doc-20`, a key strictly greater
than the endkey — the engine bound `endkey + U+FFFF` admits keys extending
the endkey. -/
theorem c1_endkey_extension_counterexample :
    (listDocuments (sampleEnv [("doc-2", [("v", Value.num 2)]), ("doc-20", [("v", Value.num 20)])])
        ⟨"mydb", none, some "doc-1", some "doc-2", none, none⟩).1
      = Except.ok (.ok [mkEntry "doc-2" [("v", Value.num 2)],
          mkEntry "doc-20" [("v", Value.num 20)]])
    ∧ keyLt "doc-2" "doc-20" = true := by
  refine ⟨rfl, by decide⟩

/-- C1 (amended): for a listing with non-empty startkey and endkey, no keys
list, no limit and ascending order on an existing namespace, the returned
documents are exactly those with startkey ≤ k < endkey + U+FFFF in key
order: a key equal to the endkey satisfies the bound and is included, but
keys that extend the endkey (the endkey a proper prefix) also satisfy it. -/
theorem c1_range_bounds_amended (env : Env) (a s e nm : String) (env1 : Env)
    (hdb : getDb env a = (some nm, env1)) (hs : s ≠ "") (he : e ≠ "") :
    (listDocuments env ⟨a, none, some s, some e, none, none⟩).1 =
      Except.ok (.ok (((regionEntries env1 nm).filter
        (fun p => keyLe s p.1 && keyLt p.1 (e ++ "￿"))).map (fun p => mkEntry p.1 p.2)))
    ∧ keyLt e (e ++ "￿") = true := by
  have hs' : (s == "") = false := beq_eq_false_iff_ne.mpr hs
  have he' : (e == "") = false := beq_eq_false_iff_ne.mpr he
  constructor
  · unfold listDocuments
    rw [hdb]
    dsimp only
    simp only [hs', he', Bool.false_eq_true, if_false]
    rw [listLoop_nolimit]
    simp [getRange]
    rfl
  · exact keyLt_self_append_uffff e

/-- C1 (witness): the amended theorem at a two-document namespace with
startkey `doc-1` and endkey `doc-2`. -/
theorem c1_range_bounds_amended_witness :
    (listDocuments (sampleEnv [("doc-2", [("v", Value.num 2)]), ("doc-3", [("v", Value.num 3)])])
        ⟨"mydb", none, some "doc-1", some "doc-2", none, none⟩).1 =
      Except.ok (.ok (((regionEntries
          (sampleEnv [("doc-2", [("v", Value.num 2)]), ("doc-3", [("v", Value.num 3)])]) "db_0").filter
        (fun p => keyLe "doc-1" p.1 && keyLt p.1 ("doc-2" ++ "￿"))).map (fun p => mkEntry p.1 p.2)))
    ∧ keyLt "doc-2" ("doc-2" ++ "￿") = true :=
  c1_range_bounds_amended
    (sampleEnv [("doc-2", [("v", Value.num 2)]), ("doc-3", [("v", Value.num 3)])])
    "mydb" "doc-1" "doc-2" "db_0"
    (sampleEnv [("doc-2", [("v", Value.num 2)]), ("doc-3", [("v", Value.num 3)])])
    rfl (by decide) (by decide)

/-- C6 (counterexample): on the first sort key one document holds `null`
and the other lacks the field — both order before any present value, a tie
under the claim's comparator, which therefore moves to the second key and
returns 1; the code comparator instead returns -1 at the first key, because
it only moves on under strict equality. -/
theorem c6_null_undefined_counterexample :
    cmpDocs [SortKey.name "p", SortKey.name "q"]
        [("p", Value.null), ("q", Value.num 2)] [("q", Value.num 1)] = -1
    ∧ cmpDocsClaim [SortKey.name "p", SortKey.name "q"]
        [("p", Value.null), ("q", Value.num 2)] [("q", Value.num 1)] = 1
    ∧ cmpDocs [SortKey.name "p", SortKey.name "q"]
          [("p", Value.null), ("q", Value.num 2)] [("q", Value.num 1)]
        ≠ cmpDocsClaim [SortKey.name "p", SortKey.name "q"]
          [("p", Value.null), ("q", Value.num 2)] [("q", Value.num 1)] := by
  refine ⟨rfl, rfl, by decide⟩

/-- C6 (amended): the code comparator moves to the next sort key exactly
when the two field values are strictly equal; otherwise it returns at the
current key the value computed there — -1 when the first value is nullish,
1 when only the second is, locale comparison for two strings, numeric
difference for two numbers, 0 for any other pair — negated for `DESC`. -/
theorem c6_comparator_amended (sort : List SortKey) (a b : Doc) :
    cmpDocs sort a b = cmpDocsAmended sort a b :=
  cmpDocs_eq_cmpDocsAmended sort a b

/-- C5 (counterexample): with a supplied limit of 0, the claimed pipeline
composition truncates to zero documents, but the code skips the falsy limit
stage and returns the whole filtered set — here one document against the
pipeline's none. -/
theorem c5_limit_zero_pipeline_counterexample :
    (queryDocuments (sampleEnv [("a", [("v", Value.num 1)])]) "mydb"
        ⟨none, none, none, some 0, none, none⟩).1
      = Except.ok (.ok [mkEntry "a" [("v", Value.num 1)]])
    ∧ querySpecPipeline [("a", [("v", Value.num 1)])] ⟨none, none, none, some 0, none, none⟩ = []
    ∧ ([mkEntry "a" [("v", Value.num 1)]] : List Doc) ≠ [] := by
  refine ⟨rfl, rfl, by simp⟩

/-- C5 (amended): for every query on an existing namespace whose limit is
not a supplied 0, the result is exactly the composition
filter → sort → skip → limit → projection; a supplied limit of 0 is treated
as no limit, so that one case falls outside the composition. -/
theorem c5_query_pipeline_amended (env : Env) (a nm : String) (env1 : Env) (q : Query)
    (hdb : getDb env a = (some nm, env1)) (hlim : q.limit ≠ some 0) :
    (queryDocuments env a q).1
      = Except.ok (.ok (querySpecPipeline (regionEntries env1 nm) q)) := by
  unfold queryDocuments querySpecPipeline
  rw [hdb]
  dsimp only
  have hfin : ∀ (x y : List Doc), x = y →
      finishOp "queryDocuments" (Outcome.resolved x) = Except.ok (OpReturn.ok y) := by
    intro x y h
    rw [h]
    rfl
  apply hfin
  have hgr : getRange (regionEntries env1 nm) ⟨none, none, false⟩ = regionEntries env1 nm := by
    simp [getRange]
  rw [hgr]
  have h0 : queryScan q.selector (regionEntries env1 nm)
      = (List.filter (fun p =>
            match q.selector with
            | some sel => matchesSelector p.2 sel
            | none => true) (regionEntries env1 nm)).map
          (fun p => mkEntry p.1 p.2) := by
    rcases hsel : q.selector with _ | sel
    · rw [queryScan_none]
      simp
    · rw [queryScan_some]
  rw [h0]
  generalize sortDocs ((List.filter (fun p =>
      match q.selector with
      | some sel => matchesSelector p.2 sel
      | none => true) (regionEntries env1 nm)).map
        (fun p => mkEntry p.1 p.2)) q.sort = S
  have hskipEq : (match q.skip with
      | some k => if k ≠ 0 then S.drop k else S
      | none => S)
      = (match q.skip with
      | some k => S.drop k
      | none => S) := by
    rcases q.skip with _ | k
    · rfl
    · by_cases hk : k = 0
      · subst hk
        simp
      · simp [hk]
  rw [hskipEq]
  generalize (match q.skip with | some k => S.drop k | none => S) = T
  have hlimEq : (match q.limit with
      | some n => if n ≠ 0 then T.take n else T
      | none => T)
      = (match q.limit with
      | some n => T.take n
      | none => T) := by
    rcases hql : q.limit with _ | n
    · rfl
    · have hn : n ≠ 0 := by
        intro h
        subst h
        exact hlim hql
      simp [hn]
  rw [hlimEq]
  generalize (match q.limit with | some n => T.take n | none => T) = U
  rcases hqf : q.fields with _ | fs
  · rfl
  · cases fs with
    | nil => simp [projectFields]
    | cons f fr => simp

/-- C5 (witness): the amended theorem at a one-document namespace with a
skip of 0 and limit of 1. -/
theorem c5_query_pipeline_amended_witness :
    (queryDocuments (sampleEnv [("a", [("v", Value.num 1)])]) "mydb"
        ⟨none, none, none, some 1, some 0, none⟩).1
      = Except.ok (.ok (querySpecPipeline (regionEntries (sampleEnv [("a", [("v", Value.num 1)])]) "db_0")
          ⟨none, none, none, some 1, some 0, none⟩)) :=
  c5_query_pipeline_amended (sampleEnv [("a", [("v", Value.num 1)])]) "mydb" "db_0"
    (sampleEnv [("a", [("v", Value.num 1)])]) ⟨none, none, none, some 1, some 0, none⟩
    rfl (by decide)

/-- C8: in an existing namespace with identifier `i` free, create then
retrieve returns the stored document unchanged, a second create yields the
Conflict 409 envelope, update on the free identifier creates the document,
and update over an existing document fully replaces it. -/
theorem c8_crud_semantics (env : Env) (a i : String) (d d2 : Doc) (nm : String) (env1 : Env)
    (hdb : getDb env a = (some nm, env1))
    (hd : d.isEmpty = false) (hd2 : d2.isEmpty = false)
    (hfree : regionGet env1 nm i = none) :
    (createDocument env ⟨a, i, d⟩).1 = Except.ok (.ok i)
    ∧ (retrieveDocument (createDocument env ⟨a, i, d⟩).2 a i).1 = Except.ok (.ok d)
    ∧ (createDocument (createDocument env ⟨a, i, d⟩).2 ⟨a, i, d2⟩).1
        = Except.ok (.err ⟨"document conflict", 409⟩)
    ∧ (updateDocument env ⟨a, i, d⟩).1 = Except.ok (.ok i)
    ∧ (retrieveDocument (updateDocument env ⟨a, i, d⟩).2 a i).1 = Except.ok (.ok d)
    ∧ (retrieveDocument (updateDocument (createDocument env ⟨a, i, d⟩).2 ⟨a, i, d2⟩).2 a i).1
        = Except.ok (.ok d2) := by
  have hcreate : createDocument env ⟨a, i, d⟩ = (Except.ok (.ok i), regionPutE env1 nm i d) := by
    unfold createDocument
    rw [if_neg (by simp [hd])]
    rw [hdb]
    dsimp only
    rw [hfree]
    rfl
  have hdbs1 : alGet env1.dbs a = some nm := getDb_dbs_some env a nm env1 hdb
  have hdbs2 : alGet (regionPutE env1 nm i d).dbs a = some nm := by
    rw [regionPutE_dbs]
    exact hdbs1
  have hget2 : getDb (regionPutE env1 nm i d) a = (some nm, regionPutE env1 nm i d) :=
    getDb_cached _ _ _ hdbs2
  have hreg2 : regionGet (regionPutE env1 nm i d) nm i = some d :=
    regionGet_regionPutE_self env1 nm i d
  have hupd : updateDocument env ⟨a, i, d⟩ = (Except.ok (.ok i), regionPutE env1 nm i d) := by
    unfold updateDocument
    rw [hdb]
    rfl
  have hupd2 : updateDocument (regionPutE env1 nm i d) ⟨a, i, d2⟩
      = (Except.ok (.ok i), regionPutE (regionPutE env1 nm i d) nm i d2) := by
    unfold updateDocument
    rw [hget2]
    rfl
  have hdbs3 : alGet (regionPutE (regionPutE env1 nm i d) nm i d2).dbs a = some nm := by
    rw [regionPutE_dbs, regionPutE_dbs]
    exact hdbs1
  have hget3 : getDb (regionPutE (regionPutE env1 nm i d) nm i d2) a
      = (some nm, regionPutE (regionPutE env1 nm i d) nm i d2) :=
    getDb_cached _ _ _ hdbs3
  have hreg3 : regionGet (regionPutE (regionPutE env1 nm i d) nm i d2) nm i = some d2 :=
    regionGet_regionPutE_self _ nm i d2
  refine ⟨by rw [hcreate], ?_, ?_, by rw [hupd], ?_, ?_⟩
  · rw [hcreate]
    unfold retrieveDocument
    rw [hget2]
    dsimp only
    rw [hreg2]
    rfl
  · rw [hcreate]
    unfold createDocument
    rw [if_neg (by simp [hd2])]
    rw [hget2]
    dsimp only
    rw [hreg2]
    rfl
  · rw [hupd]
    unfold retrieveDocument
    rw [hget2]
    dsimp only
    rw [hreg2]
    rfl
  · rw [hcreate]
    dsimp only
    rw [hupd2]
    unfold retrieveDocument
    rw [hget3]
    dsimp only
    rw [hreg3]
    rfl

/-- C8 (witness): the theorem at an empty namespace with two concrete
documents. -/
theorem c8_crud_semantics_witness :
    (createDocument (sampleEnv []) ⟨"mydb", "doc-1", [("x", Value.num 1)]⟩).1
        = Except.ok (.ok "doc-1")
    ∧ (retrieveDocument (createDocument (sampleEnv [])
        ⟨"mydb", "doc-1", [("x", Value.num 1)]⟩).2 "mydb" "doc-1").1
        = Except.ok (.ok [("x", Value.num 1)])
    ∧ (createDocument (createDocument (sampleEnv []) ⟨"mydb", "doc-1", [("x", Value.num 1)]⟩).2
        ⟨"mydb", "doc-1", [("y", Value.num 2)]⟩).1
        = Except.ok (.err ⟨"document conflict", 409⟩)
    ∧ (updateDocument (sampleEnv []) ⟨"mydb", "doc-1", [("x", Value.num 1)]⟩).1
        = Except.ok (.ok "doc-1")
    ∧ (retrieveDocument (updateDocument (sampleEnv [])
        ⟨"mydb", "doc-1", [("x", Value.num 1)]⟩).2 "mydb" "doc-1").1
        = Except.ok (.ok [("x", Value.num 1)])
    ∧ (retrieveDocument (updateDocument (createDocument (sampleEnv [])
        ⟨"mydb", "doc-1", [("x", Value.num 1)]⟩).2 ⟨"mydb", "doc-1", [("y", Value.num 2)]⟩).2
        "mydb" "doc-1").1
        = Except.ok (.ok [("y", Value.num 2)]) :=
  c8_crud_semantics (sampleEnv []) "mydb" "doc-1" [("x", Value.num 1)] [("y", Value.num 2)]
    "db_0" (sampleEnv []) rfl rfl rfl rfl

/-- C10: a returned entry spreads the stored document over the `_id: key`
base, so a stored `_id` field wins over the storage key, the key is used
only when the document has no `_id` field of its own, and both
listDocuments and queryDocuments build every returned entry this way. -/
theorem c10_id_field_precedence (env : Env) (a nm : String) (env1 : Env) (k : String) (d : Doc)
    (hdb : getDb env a = (some nm, env1)) (hnd : keysNodup d) :
    (hasField "_id" d = true → getProp "_id" (mkEntry k d) = getProp "_id" d)
    ∧ (hasField "_id" d = false → getProp "_id" (mkEntry k d) = Value.str k)
    ∧ (listDocuments env ⟨a, none, none, none, none, none⟩).1 =
        Except.ok (.ok ((regionEntries env1 nm).map (fun p => mkEntry p.1 p.2)))
    ∧ (queryDocuments env a ⟨none, none, none, none, none, none⟩).1 =
        Except.ok (.ok ((regionEntries env1 nm).map (fun p => mkEntry p.1 p.2))) := by
  have hspread := getProp_objSpread "_id" d [("_id", Value.str k)] hnd
  have hgr : getRange (regionEntries env1 nm) ⟨none, none, false⟩ = regionEntries env1 nm := by
    simp [getRange]
  refine ⟨?_, ?_, ?_, ?_⟩
  · intro h
    unfold mkEntry
    rw [hspread, if_pos h]
  · intro h
    unfold mkEntry
    rw [hspread, if_neg (by simp [h])]
    rfl
  · unfold listDocuments
    rw [hdb]
    dsimp only
    rw [listLoop_nolimit, hgr]
    rfl
  · unfold queryDocuments
    rw [hdb]
    dsimp only
    rw [hgr, queryScan_none]
    dsimp only [sortDocs]
    rfl

/-- C10 (witness): the theorem at a concrete namespace and a document that
carries its own `_id` field. -/
theorem c10_id_field_precedence_witness :
    (hasField "_id" [("_id", Value.str "inner"), ("w", Value.num 4)] = true →
      getProp "_id" (mkEntry "kX" [("_id", Value.str "inner"), ("w", Value.num 4)])
        = getProp "_id" [("_id", Value.str "inner"), ("w", Value.num 4)])
    ∧ (hasField "_id" [("_id", Value.str "inner"), ("w", Value.num 4)] = false →
      getProp "_id" (mkEntry "kX" [("_id", Value.str "inner"), ("w", Value.num 4)])
        = Value.str "kX")
    ∧ (listDocuments (sampleEnv [("k1", [("z", Value.num 3)])])
        ⟨"mydb", none, none, none, none, none⟩).1 =
        Except.ok (.ok ((regionEntries (sampleEnv [("k1", [("z", Value.num 3)])]) "db_0").map
          (fun p => mkEntry p.1 p.2)))
    ∧ (queryDocuments (sampleEnv [("k1", [("z", Value.num 3)])]) "mydb"
        ⟨none, none, none, none, none, none⟩).1 =
        Except.ok (.ok ((regionEntries (sampleEnv [("k1", [("z", Value.num 3)])]) "db_0").map
          (fun p => mkEntry p.1 p.2))) :=
  c10_id_field_precedence (sampleEnv [("k1", [("z", Value.num 3)])]) "mydb" "db_0"
    (sampleEnv [("k1", [("z", Value.num 3)])]) "kX"
    [("_id", Value.str "inner"), ("w", Value.num 4)] rfl (by unfold keysNodup; decide)

end HyperLmdb
